import Mathlib

/-!
Verification of the hard-disk-gas simulation (classes `Cajas` and `Esfera`,
plus the `main` simulation loop) and of the coupled-Duffing RK4 integrator
(`IntegradorRK4::integrar`).

The C++ `double` arithmetic is embedded over `ℚ` (exact field arithmetic).
Where the source computes `dist = sqrt(dist2)` and immediately divides
by it, every quantity that reaches the state depends on `dist` only through
`dist2 = dist * dist`, so the embedding is expressed without square roots
(the algebraic identities used are recorded at each definition); theorem
statements that speak about unit-normal components use `Real.sqrt` on the
casted values.  The IEEE special values (NaN/Inf) produced by `0/0` are not
representable in `ℚ`; the one fallible operation (`Cajas::calcularPresion`,
an unguarded division by the impact count) is embedded as an
`Option`-returning function that is `none` exactly when the divisor is zero.
-/

/-- The container (`class Cajas`): box extents and the pressure bookkeeping
fields `p` (last finalized pressure), `n` (impact count), `pn` (running sum).
All fields are C++ `double`s, embedded as `ℚ`. -/
structure Cajas where
  xmin : ℚ
  xmax : ℚ
  ymin : ℚ
  ymax : ℚ
  p : ℚ
  n : ℚ
  pn : ℚ
deriving DecidableEq

/-- Accessor `Cajas::Getxmin` — returns `xmin`. -/
def Cajas.Getxmin (c : Cajas) : ℚ := c.xmin

/-- Accessor `Cajas::Getxmax` — returns `xmax`. -/
def Cajas.Getxmax (c : Cajas) : ℚ := c.xmax

/-- Accessor `Cajas::Getymin` — the source returns `xmin` (sic), not `ymin`:
`double Getymin() const { return xmin; }`. -/
def Cajas.Getymin (c : Cajas) : ℚ := c.xmin

/-- Accessor `Cajas::Getymax` — the source returns `xmax` (sic), not `ymax`:
`double Getymax() const { return xmax; }`. -/
def Cajas.Getymax (c : Cajas) : ℚ := c.xmax

/-- Accessor `Cajas::Getp` — returns the pressure field `p`. -/
def Cajas.Getp (c : Cajas) : ℚ := c.p

/-- Initializer `Cajas::inicio(x1,x2,y1,y2)` — sets the four extents, leaves the
pressure fields as they were. -/
def Cajas.inicio (c : Cajas) (x1 x2 y1 y2 : ℚ) : Cajas :=
  { c with xmin := x1, xmax := x2, ymin := y1, ymax := y2 }

/-- Reset `Cajas::actualizarPresion()` — `p = 0; pn = 0; n = 0;` (note: it zeroes
the reported pressure `p` as well as the two accumulators). -/
def Cajas.actualizarPresion (c : Cajas) : Cajas :=
  { c with p := 0, pn := 0, n := 0 }

/-- Accumulator `Cajas::calcularPresionN(mv2)` — `pn += mv2 / 3; n += 1;`. -/
def Cajas.calcularPresionN (c : Cajas) (mv2 : ℚ) : Cajas :=
  { c with pn := c.pn + mv2 / 3, n := c.n + 1 }

/-- Finalizer `Cajas::calcularPresion()` — `p = pn / n;`, an unguarded division.
With `n = 0` the C++ `double` quotient is the indeterminate `0/0` (NaN) or
`±Inf`, neither representable in `ℚ`, so the operation is embedded as
fallible: `none` exactly when the divisor `n` is zero. -/
def Cajas.calcularPresion (c : Cajas) : Option Cajas :=
  if c.n = 0 then none else some { c with p := c.pn / c.n }

/-- A particle (`class Esfera`): mass, position, velocity, radius.
The cached heading `theta = atan2(vy, vx)` is written by
`actualizarAngulo()` but never read anywhere in the program (it does not
influence any dynamics or output), so it is omitted from the state. -/
structure Esfera where
  m : ℚ
  x : ℚ
  y : ℚ
  vx : ℚ
  vy : ℚ
  R : ℚ
deriving DecidableEq

/-- Translation `Esfera::muevase(t)` — `x += vx*t; y += vy*t;`. -/
def Esfera.muevase (e : Esfera) (t : ℚ) : Esfera :=
  { e with x := e.x + e.vx * t, y := e.y + e.vy * t }

/-- Wall reflection `Esfera::rebotePared(caja)` — two independent axis checks.  The first
compares `x` against `Getxmin`/`Getxmax`; the second compares `y` against
`Getymin`/`Getymax` (which, in the source, return `xmin`/`xmax`).  Each
firing branch negates the velocity component, then reports
`m * (vx*vx + vy*vy)` (with the already-negated component) to
`calcularPresionN`.  Returns the updated particle and box. -/
def Esfera.rebotePared (e : Esfera) (caja : Cajas) : Esfera × Cajas :=
  let e1 : Esfera :=
    if e.x - caja.Getxmin ≤ e.R ∨ caja.Getxmax - e.x ≤ e.R then
      { e with vx := -e.vx } else e
  let c1 : Cajas :=
    if e.x - caja.Getxmin ≤ e.R ∨ caja.Getxmax - e.x ≤ e.R then
      caja.calcularPresionN (e1.m * (e1.vx * e1.vx + e1.vy * e1.vy)) else caja
  let e2 : Esfera :=
    if e1.y - c1.Getymin ≤ e1.R ∨ c1.Getymax - e1.y ≤ e1.R then
      { e1 with vy := -e1.vy } else e1
  let c2 : Cajas :=
    if e1.y - c1.Getymin ≤ e1.R ∨ c1.Getymax - e1.y ≤ e1.R then
      c1.calcularPresionN (e2.m * (e2.vx * e2.vx + e2.vy * e2.vy)) else c1
  (e2, c2)

/-- Pair collision `Esfera::colision(otra)` — elastic.  The source computes
`dist = sqrt(dist2)`, the unit normal `n = (dx/dist, dy/dist)`, the normal
components `vn1 = v1·n`, `vn2 = v2·n`, swaps them, and adds
`(vn_new - vn)*n` to each velocity.  Since
`(vn2 - vn1)*nx = ((Δv·d)/dist)*(dx/dist) = (Δv·d)*dx/dist2`
(and likewise for `ny`), the state update depends on `dist` only through
`dist2`, and `dist == 0` iff `dist2 == 0`; the embedding therefore uses the
single scalar `s = (Δv·d)/dist2` and no square root, which is exact.
Returns the updated pair `(this, otra)`. -/
def Esfera.colision (a b : Esfera) : Esfera × Esfera :=
  let dx := b.x - a.x
  let dy := b.y - a.y
  let dist2 := dx * dx + dy * dy
  let Rsum := a.R + b.R
  if dist2 ≤ Rsum * Rsum then
    if dist2 = 0 then (a, b)
    else
      let s := ((b.vx - a.vx) * dx + (b.vy - a.vy) * dy) / dist2
      ({ a with vx := a.vx + s * dx, vy := a.vy + s * dy },
       { b with vx := b.vx - s * dx, vy := b.vy - s * dy })
  else (a, b)

/-- Inner loop of the collision pass in `main`:
`for (j = i+1; j < n; j++) esferas[i].colision(esferas[j]);`.
The running particle `i` is updated against each later particle in order,
and each later particle is updated in place. -/
def colisionConResto : Esfera → List Esfera → Esfera × List Esfera
  | e, [] => (e, [])
  | e, f :: rest =>
      let p1 := Esfera.colision e f
      let p2 := colisionConResto p1.1 rest
      (p2.1, p1.2 :: p2.2)

/-- Helper lemma: `colisionConResto` keeps the number of later particles. -/
theorem colisionConResto_length (e : Esfera) (l : List Esfera) :
    (colisionConResto e l).2.length = l.length := by
  induction l generalizing e with
  | nil => rfl
  | cons f rest ih => simp [colisionConResto, ih]

/-- The full pairwise collision pass of `main` (`i < j` only), positions
held fixed: particle `i` collides with every `j > i`, then the pass
continues from `i+1` over the already-updated suffix. -/
def colisionPass : List Esfera → List Esfera
  | [] => []
  | e :: rest =>
      let p := colisionConResto e rest
      p.1 :: colisionPass p.2
termination_by l => l.length
decreasing_by simp [colisionConResto_length]

/-- Folding a scripted sequence of wall-impact reports
(mass·speed² values) into the box, one `calcularPresionN` call each. -/
def presionLote (c : Cajas) (l : List ℚ) : Cajas :=
  l.foldl Cajas.calcularPresionN c

/-- One state of the coupled-oscillator system: positions `x1, x2` and
velocities `y1, y2` (the heads of the four trajectory vectors). -/
structure OscState where
  x1 : ℚ
  x2 : ℚ
  y1 : ℚ
  y2 : ℚ
deriving DecidableEq

/-- The loop body of `IntegradorRK4::integrar`, verbatim: the position
stages `k1, k2` are built from `y[i]` and the previous `k` stage
(`k1[1] = h*(y1[i] + k1[0]/2)`, …), the velocity stages `l1, l2` call the
right-hand sides `f1, f2` at the shifted arguments, and the new state adds
the `(·[0] + 2·[1] + 2·[2] + ·[3])/6` combinations.  `integrar` is generic
in the oscillator: it only uses `osc.f1` and `osc.f2`, embedded here as the
function parameters `f1 f2 : (t x1 x2 y1 y2) → ℚ`. -/
def rk4Step (f1 f2 : ℚ → ℚ → ℚ → ℚ → ℚ → ℚ) (t h : ℚ) (s : OscState) : OscState :=
  let k1_0 := h * s.y1
  let k2_0 := h * s.y2
  let k1_1 := h * (s.y1 + k1_0 / 2)
  let k2_1 := h * (s.y2 + k2_0 / 2)
  let k1_2 := h * (s.y1 + k1_1 / 2)
  let k2_2 := h * (s.y2 + k2_1 / 2)
  let k1_3 := h * (s.y1 + k1_2)
  let k2_3 := h * (s.y2 + k2_2)
  let l1_0 := h * f1 t s.x1 s.x2 s.y1 s.y2
  let l2_0 := h * f2 t s.x1 s.x2 s.y1 s.y2
  let l1_1 := h * f1 (t + h / 2) (s.x1 + k1_0 / 2) (s.x2 + k2_0 / 2)
      (s.y1 + l1_0 / 2) (s.y2 + l2_0 / 2)
  let l2_1 := h * f2 (t + h / 2) (s.x1 + k1_0 / 2) (s.x2 + k2_0 / 2)
      (s.y1 + l1_0 / 2) (s.y2 + l2_0 / 2)
  let l1_2 := h * f1 (t + h / 2) (s.x1 + k1_1 / 2) (s.x2 + k2_1 / 2)
      (s.y1 + l1_1 / 2) (s.y2 + l2_1 / 2)
  let l2_2 := h * f2 (t + h / 2) (s.x1 + k1_1 / 2) (s.x2 + k2_1 / 2)
      (s.y1 + l1_1 / 2) (s.y2 + l2_1 / 2)
  let l1_3 := h * f1 (t + h) (s.x1 + k1_2) (s.x2 + k2_2)
      (s.y1 + l1_2) (s.y2 + l2_2)
  let l2_3 := h * f2 (t + h) (s.x1 + k1_2) (s.x2 + k2_2)
      (s.y1 + l1_2) (s.y2 + l2_2)
  { x1 := s.x1 + (k1_0 + 2 * k1_1 + 2 * k1_2 + k1_3) / 6
    x2 := s.x2 + (k2_0 + 2 * k2_1 + 2 * k2_2 + k2_3) / 6
    y1 := s.y1 + (l1_0 + 2 * l1_1 + 2 * l1_2 + l1_3) / 6
    y2 := s.y2 + (l2_0 + 2 * l2_1 + 2 * l2_2 + l2_3) / 6 }

/-- The classical four-stage Runge-Kutta update for the first-order system
`dx1/dt = y1, dx2/dt = y2, dy1/dt = f1, dy2/dt = f2`, written from the
description: four derivative evaluations of the full system, the position
spec: stages at the midpoints evaluated with the velocity increments (`l`)
of the previous stage, combined with weights `1,2,2,1` over `6`. -/
def rk4ClassicStep (f1 f2 : ℚ → ℚ → ℚ → ℚ → ℚ → ℚ) (t h : ℚ) (s : OscState) : OscState :=
  let k1_0 := h * s.y1
  let k2_0 := h * s.y2
  let l1_0 := h * f1 t s.x1 s.x2 s.y1 s.y2
  let l2_0 := h * f2 t s.x1 s.x2 s.y1 s.y2
  let k1_1 := h * (s.y1 + l1_0 / 2)
  let k2_1 := h * (s.y2 + l2_0 / 2)
  let l1_1 := h * f1 (t + h / 2) (s.x1 + k1_0 / 2) (s.x2 + k2_0 / 2)
      (s.y1 + l1_0 / 2) (s.y2 + l2_0 / 2)
  let l2_1 := h * f2 (t + h / 2) (s.x1 + k1_0 / 2) (s.x2 + k2_0 / 2)
      (s.y1 + l1_0 / 2) (s.y2 + l2_0 / 2)
  let k1_2 := h * (s.y1 + l1_1 / 2)
  let k2_2 := h * (s.y2 + l2_1 / 2)
  let l1_2 := h * f1 (t + h / 2) (s.x1 + k1_1 / 2) (s.x2 + k2_1 / 2)
      (s.y1 + l1_1 / 2) (s.y2 + l2_1 / 2)
  let l2_2 := h * f2 (t + h / 2) (s.x1 + k1_1 / 2) (s.x2 + k2_1 / 2)
      (s.y1 + l1_1 / 2) (s.y2 + l2_1 / 2)
  let k1_3 := h * (s.y1 + l1_2)
  let k2_3 := h * (s.y2 + l2_2)
  let l1_3 := h * f1 (t + h) (s.x1 + k1_2) (s.x2 + k2_2)
      (s.y1 + l1_2) (s.y2 + l2_2)
  let l2_3 := h * f2 (t + h) (s.x1 + k1_2) (s.x2 + k2_2)
      (s.y1 + l1_2) (s.y2 + l2_2)
  { x1 := s.x1 + (k1_0 + 2 * k1_1 + 2 * k1_2 + k1_3) / 6
    x2 := s.x2 + (k2_0 + 2 * k2_1 + 2 * k2_2 + k2_3) / 6
    y1 := s.y1 + (l1_0 + 2 * l1_1 + 2 * l1_2 + l1_3) / 6
    y2 := s.y2 + (l2_0 + 2 * l2_1 + 2 * l2_2 + l2_3) / 6 }

/-- The finiteness test of the loop, `std::isfinite` on the four components
of the freshly appended state.  IEEE non-finiteness is not representable in
`ℚ`, so the per-component test is a parameter `fin`; the control flow of the
loop is independent of which values it flags. -/
def finCheck (fin : ℚ → Bool) (s : OscState) : Bool :=
  fin s.x1 && fin s.y1 && fin s.x2 && fin s.y2

/-- Iteration of `IntegradorRK4::integrar` over the remaining time grid:
for each consecutive pair `t[i], t[i+1]` take `h = t[i+1] - t[i]`, push the
`rk4Step` state, and `break` out of the loop (appending nothing further) as
soon as the pushed state fails the `isfinite` check. -/
def integrarGo (f1 f2 : ℚ → ℚ → ℚ → ℚ → ℚ → ℚ) (fin : ℚ → Bool) :
    List ℚ → OscState → List OscState
  | t0 :: t1 :: rest, s =>
      let s1 := rk4Step f1 f2 t0 (t1 - t0) s
      if finCheck fin s1 then s1 :: integrarGo f1 f2 fin (t1 :: rest) s1
      else [s1]
  | _, _ => []

/-- Integrator `IntegradorRK4::integrar`: the trajectory starts with the initial state
(the `x1 = {x1_0}, …` singletons set by `inicializar`) and the loop appends
one state per consecutive time pair until the grid or the finiteness check
ends it. -/
def integrar (f1 f2 : ℚ → ℚ → ℚ → ℚ → ℚ → ℚ) (fin : ℚ → Bool)
    (t : List ℚ) (s0 : OscState) : List OscState :=
  s0 :: integrarGo f1 f2 fin t s0

/-- Accumulating a batch of impact reports adds the scaled contributions to
`pn` and the batch length to `n`, and never touches `p` or the extents. -/
theorem presionLote_fields (l : List ℚ) (c : Cajas) :
    (presionLote c l).pn = c.pn + (l.map (fun v => v / 3)).sum ∧
      (presionLote c l).n = c.n + l.length ∧
      (presionLote c l).p = c.p := by
  induction l generalizing c with
  | nil => simp [presionLote]
  | cons v rest ih =>
      have h := ih (c.calcularPresionN v)
      simp only [presionLote] at h ⊢
      rw [List.foldl_cons]
      refine ⟨?_, ?_, ?_⟩
      · rw [h.1]; simp [Cajas.calcularPresionN]; ring
      · rw [h.2.1]; simp [Cajas.calcularPresionN]; ring
      · rw [h.2.2]; rfl

/-- C2: starting from freshly reset accumulators, every
`calcularPresionN(mv2)` call adds exactly `mv2/3` to the running sum and
adds one to the impact count, and a subsequent `calcularPresion` sets the
reported pressure to the sum of the `mv2/3` contributions divided by the
number of calls. -/
theorem calcularPresion_of_lote (c : Cajas) (l : List ℚ) (hne : l ≠ []) :
    (∀ (d : Cajas) (mv2 : ℚ),
        (d.calcularPresionN mv2).pn = d.pn + mv2 / 3 ∧
          (d.calcularPresionN mv2).n = d.n + 1) ∧
      ((presionLote c.actualizarPresion l).calcularPresion).map Cajas.Getp =
        some ((l.map (fun v => v / 3)).sum / (l.length : ℚ)) := by
  refine ⟨fun d mv2 => ⟨rfl, rfl⟩, ?_⟩
  obtain ⟨h1, h2, -⟩ := presionLote_fields l c.actualizarPresion
  have hq : ((l.length : ℚ)) ≠ 0 := by
    have : l.length ≠ 0 := by simpa using hne
    exact_mod_cast this
  have hn : (presionLote c.actualizarPresion l).n = (l.length : ℚ) := by
    rw [h2]; simp [Cajas.actualizarPresion]
  have hpn : (presionLote c.actualizarPresion l).pn = (l.map (fun v => v / 3)).sum := by
    rw [h1]; simp [Cajas.actualizarPresion]
  rw [Cajas.calcularPresion, if_neg (by rw [hn]; exact hq)]
  simp [Cajas.Getp, hn, hpn]

/-- Witness for C2: resetting and reporting the impacts `3` then `6` gives
pressure `(3/3 + 6/3) / 2 = 3/2`. -/
theorem calcularPresion_of_lote_witness :
    ((presionLote (Cajas.mk 0 0 0 0 7 3 9).actualizarPresion [3, 6]).calcularPresion).map
        Cajas.Getp =
      some (((([3, 6] : List ℚ)).map (fun v => v / 3)).sum / (([3, 6] : List ℚ).length : ℚ)) :=
  (calcularPresion_of_lote (Cajas.mk 0 0 0 0 7 3 9) [3, 6] (by simp)).2

/-- C3 counterexample: finalizing the pressure right after a reset (zero
recorded impacts) is not a handled, deterministic value — it is the
unguarded division by the zero impact count, embedded as `none`. -/
theorem calcularPresion_after_reset_fails :
    ((Cajas.mk (-5) 5 (-5) 5 2 4 6).actualizarPresion).calcularPresion = none := by
  decide

/-- C3 amended: whenever the impact count is zero, `calcularPresion`
performs the unguarded division `p = pn / n` with divisor zero; no
deterministic fallback (previous value, zero, …) exists in the code. -/
theorem calcularPresion_zero_count (c : Cajas) (h : c.n = 0) :
    c.calcularPresion = none := by
  simp [Cajas.calcularPresion, h]

/-- Witness for the amended C3: a concrete box with impact count zero. -/
theorem calcularPresion_zero_count_witness :
    (Cajas.mk 1 2 3 4 5 0 6).calcularPresion = none :=
  calcularPresion_zero_count (Cajas.mk 1 2 3 4 5 0 6) rfl

/-- C8 counterexample: a box whose last finalized pressure is `5`; after
`actualizarPresion` the getter `Getp` reports `0`, not the retained `5`. -/
theorem actualizarPresion_clears_Getp :
    ((Cajas.mk (-5) 5 (-5) 5 5 2 8).actualizarPresion).Getp = 0 ∧
      ((5 : ℚ)) ≠ 0 := by
  decide

/-- C8 amended: `actualizarPresion` zeroes the running sum, the impact
count, and also the reported pressure `p` itself; consequently between the
reset and the next `calcularPresion`, any number of accumulation calls
leaves `Getp` at `0` (the last finalized value is lost, not retained). -/
theorem actualizarPresion_zeroes_all (c : Cajas) (l : List ℚ) :
    (c.actualizarPresion).pn = 0 ∧ (c.actualizarPresion).n = 0 ∧
      (c.actualizarPresion).p = 0 ∧
      (presionLote c.actualizarPresion l).Getp = 0 := by
  refine ⟨rfl, rfl, rfl, ?_⟩
  obtain ⟨-, -, hp⟩ := presionLote_fields l c.actualizarPresion
  simpa [Cajas.Getp, Cajas.actualizarPresion] using hp

/-- C5: `rebotePared` decides the `vy` flip by comparing `y` against
`Getymin`/`Getymax`, which return the X extents.  Concrete failing input:
box extents `x ∈ [-5, 5]`, `y ∈ [-20, 20]`, particle at `(0, 6)` with
radius `1/10` and velocity `(0, 1)`.  The particle is more than `1/10` away
from both true Y walls, yet the call negates `vy` (because `Getymax - y =
5 - 6 ≤ 1/10`) and records a wall impact. -/
theorem rebotePared_y_against_x_bounds :
    (1/10 : ℚ) < (Esfera.mk 1 0 6 0 1 (1/10)).y -
        ((Cajas.inicio (Cajas.mk 0 0 0 0 0 0 0) (-5) 5 (-20) 20).actualizarPresion).ymin ∧
      (1/10 : ℚ) <
        ((Cajas.inicio (Cajas.mk 0 0 0 0 0 0 0) (-5) 5 (-20) 20).actualizarPresion).ymax -
          (Esfera.mk 1 0 6 0 1 (1/10)).y ∧
      ((Esfera.mk 1 0 6 0 1 (1/10)).rebotePared
        ((Cajas.inicio (Cajas.mk 0 0 0 0 0 0 0) (-5) 5 (-20) 20).actualizarPresion)).1.vy =
        -1 ∧
      ((Esfera.mk 1 0 6 0 1 (1/10)).rebotePared
        ((Cajas.inicio (Cajas.mk 0 0 0 0 0 0 0) (-5) 5 (-20) 20).actualizarPresion)).2.n =
        1 := by
  norm_num [Esfera.rebotePared, Cajas.inicio, Cajas.actualizarPresion, Cajas.Getxmin,
    Cajas.Getxmax, Cajas.Getymin, Cajas.Getymax, Cajas.calcularPresionN]

/-- C6: the single-particle scenario of the spec.  Box extents `-5..5`, particle
of mass `1` at `(4.95, 0)` with radius `0.1` and velocity `(1, 0)`; one
step (`rebotePared` then `muevase` with `dt = 0.1`) reflects the particle to
`(4.85, 0)` with velocity `(-1, 0)`, records exactly one impact of
`1·1² = 1` (so the running sum is `1/3`), and finalizing yields pressure
`1/3`. -/
theorem scenario_one_particle_step :
    (((Esfera.mk 1 (99/20) 0 1 0 (1/10)).rebotePared
        ((Cajas.inicio (Cajas.mk 0 0 0 0 0 0 0) (-5) 5 (-5) 5).actualizarPresion)).1.muevase
          (1/10)).x = 97/20 ∧
      (((Esfera.mk 1 (99/20) 0 1 0 (1/10)).rebotePared
        ((Cajas.inicio (Cajas.mk 0 0 0 0 0 0 0) (-5) 5 (-5) 5).actualizarPresion)).1.muevase
          (1/10)).y = 0 ∧
      (((Esfera.mk 1 (99/20) 0 1 0 (1/10)).rebotePared
        ((Cajas.inicio (Cajas.mk 0 0 0 0 0 0 0) (-5) 5 (-5) 5).actualizarPresion)).1.muevase
          (1/10)).vx = -1 ∧
      (((Esfera.mk 1 (99/20) 0 1 0 (1/10)).rebotePared
        ((Cajas.inicio (Cajas.mk 0 0 0 0 0 0 0) (-5) 5 (-5) 5).actualizarPresion)).1.muevase
          (1/10)).vy = 0 ∧
      ((Esfera.mk 1 (99/20) 0 1 0 (1/10)).rebotePared
        ((Cajas.inicio (Cajas.mk 0 0 0 0 0 0 0) (-5) 5 (-5) 5).actualizarPresion)).2.n = 1 ∧
      ((Esfera.mk 1 (99/20) 0 1 0 (1/10)).rebotePared
        ((Cajas.inicio (Cajas.mk 0 0 0 0 0 0 0) (-5) 5 (-5) 5).actualizarPresion)).2.pn =
        1/3 ∧
      ((((Esfera.mk 1 (99/20) 0 1 0 (1/10)).rebotePared
        ((Cajas.inicio (Cajas.mk 0 0 0 0 0 0 0) (-5) 5 (-5) 5).actualizarPresion)).2.calcularPresion).map
          Cajas.Getp) = some (1/3) := by
  norm_num [Esfera.rebotePared, Esfera.muevase, Cajas.inicio, Cajas.actualizarPresion,
    Cajas.Getxmin, Cajas.Getxmax, Cajas.Getymin, Cajas.Getymax, Cajas.calcularPresionN,
    Cajas.calcularPresion, Cajas.Getp]

/-- C10: `colision` conserves the total momentum of the pair exactly — the
velocity deltas applied to the two particles are `±s·(dx, dy)`, equal in
magnitude and opposite in direction, in every branch (colliding,
degenerate, or separated). -/
theorem colision_conserva_momento (a b : Esfera) :
    ((a.colision b).1.vx + (a.colision b).2.vx = a.vx + b.vx) ∧
      ((a.colision b).1.vy + (a.colision b).2.vy = a.vy + b.vy) := by
  by_cases h1 : (b.x - a.x) * (b.x - a.x) + (b.y - a.y) * (b.y - a.y) ≤
      (a.R + b.R) * (a.R + b.R)
  · by_cases h2 : (b.x - a.x) * (b.x - a.x) + (b.y - a.y) * (b.y - a.y) = 0
    · simp [Esfera.colision, h1, h2]
    · simp only [Esfera.colision, if_pos h1, if_neg h2]
      constructor <;> ring
  · simp [Esfera.colision, h1]

/-- The two branch outcomes of `colision` in explicit form: in the
overlapping, non-degenerate case the velocity deltas are `±s·(dx, dy)`. -/
theorem colision_eq_of_overlap (a b : Esfera)
    (h1 : (b.x - a.x) * (b.x - a.x) + (b.y - a.y) * (b.y - a.y) ≤
      (a.R + b.R) * (a.R + b.R))
    (h2 : (b.x - a.x) * (b.x - a.x) + (b.y - a.y) * (b.y - a.y) ≠ 0) :
    a.colision b =
      ({ a with
          vx := a.vx + ((b.vx - a.vx) * (b.x - a.x) + (b.vy - a.vy) * (b.y - a.y)) /
              ((b.x - a.x) * (b.x - a.x) + (b.y - a.y) * (b.y - a.y)) * (b.x - a.x),
          vy := a.vy + ((b.vx - a.vx) * (b.x - a.x) + (b.vy - a.vy) * (b.y - a.y)) /
              ((b.x - a.x) * (b.x - a.x) + (b.y - a.y) * (b.y - a.y)) * (b.y - a.y) },
       { b with
          vx := b.vx - ((b.vx - a.vx) * (b.x - a.x) + (b.vy - a.vy) * (b.y - a.y)) /
              ((b.x - a.x) * (b.x - a.x) + (b.y - a.y) * (b.y - a.y)) * (b.x - a.x),
          vy := b.vy - ((b.vx - a.vx) * (b.x - a.x) + (b.vy - a.vy) * (b.y - a.y)) /
              ((b.x - a.x) * (b.x - a.x) + (b.y - a.y) * (b.y - a.y)) * (b.y - a.y) }) := by
  simp only [Esfera.colision]
  rw [if_pos h1, if_neg h2]

/-- C1: for equal-mass particles whose center distance is positive and at
most the sum of the radii, `colision` exchanges the two unit-normal velocity
components exactly (`vn1_new = vn2_old`, `vn2_new = vn1_old`), leaves both
tangential components (along `(-ny, nx)`) unchanged, and preserves the total
kinetic energy `m/2·|v|²` of the pair exactly. -/
theorem colision_intercambia_normales (a b : Esfera)
    (hm : a.m = b.m)
    (hpos : 0 < (b.x - a.x) * (b.x - a.x) + (b.y - a.y) * (b.y - a.y))
    (hcol : (b.x - a.x) * (b.x - a.x) + (b.y - a.y) * (b.y - a.y) ≤
      (a.R + b.R) * (a.R + b.R)) :
    let r : ℝ := Real.sqrt (((b.x - a.x) * (b.x - a.x) + (b.y - a.y) * (b.y - a.y) : ℚ) : ℝ)
    let nx : ℝ := ((b.x - a.x : ℚ) : ℝ) / r
    let ny : ℝ := ((b.y - a.y : ℚ) : ℝ) / r
    let a2 := (a.colision b).1
    let b2 := (a.colision b).2
    ((a2.vx : ℝ) * nx + (a2.vy : ℝ) * ny = (b.vx : ℝ) * nx + (b.vy : ℝ) * ny) ∧
      ((b2.vx : ℝ) * nx + (b2.vy : ℝ) * ny = (a.vx : ℝ) * nx + (a.vy : ℝ) * ny) ∧
      ((a2.vx : ℝ) * (-ny) + (a2.vy : ℝ) * nx = (a.vx : ℝ) * (-ny) + (a.vy : ℝ) * nx) ∧
      ((b2.vx : ℝ) * (-ny) + (b2.vy : ℝ) * nx = (b.vx : ℝ) * (-ny) + (b.vy : ℝ) * nx) ∧
      (a.m / 2 * (a2.vx * a2.vx + a2.vy * a2.vy) +
          b.m / 2 * (b2.vx * b2.vx + b2.vy * b2.vy) =
        a.m / 2 * (a.vx * a.vx + a.vy * a.vy) +
          b.m / 2 * (b.vx * b.vx + b.vy * b.vy)) := by
  have hd : (b.x - a.x) * (b.x - a.x) + (b.y - a.y) * (b.y - a.y) ≠ 0 := hpos.ne'
  have hab := colision_eq_of_overlap a b hcol hd
  have hr : Real.sqrt (((b.x - a.x) * (b.x - a.x) + (b.y - a.y) * (b.y - a.y) : ℚ) : ℝ) ≠ 0 :=
    (Real.sqrt_pos.mpr (by exact_mod_cast hpos)).ne'
  have hdR : (((b.x - a.x) * (b.x - a.x) + (b.y - a.y) * (b.y - a.y) : ℚ) : ℝ) ≠ 0 := by
    exact_mod_cast hd
  dsimp only
  rw [hab]
  dsimp only
  push_cast at hr hdR ⊢
  refine ⟨?_, ?_, ?_, ?_, ?_⟩
  · field_simp
    ring
  · field_simp
    ring
  · field_simp
    ring
  · field_simp
    ring
  · rw [← hm]
    field_simp
    ring

/-- First witness particle for the collision-exchange theorem. -/
def esferaW1 : Esfera := Esfera.mk 1 0 0 2 3 1

/-- Second witness particle for the collision-exchange theorem. -/
def esferaW2 : Esfera := Esfera.mk 1 1 0 (-1) 1 1

/-- Witness for C1: two touching unit-radius particles of mass 1 at
`(0,0)` and `(1,0)` with velocities `(2,3)` and `(-1,1)`. -/
theorem colision_intercambia_normales_witness :
    let r : ℝ := Real.sqrt (((esferaW2.x - esferaW1.x) * (esferaW2.x - esferaW1.x) +
      (esferaW2.y - esferaW1.y) * (esferaW2.y - esferaW1.y) : ℚ) : ℝ)
    let nx : ℝ := ((esferaW2.x - esferaW1.x : ℚ) : ℝ) / r
    let ny : ℝ := ((esferaW2.y - esferaW1.y : ℚ) : ℝ) / r
    let a2 := (esferaW1.colision esferaW2).1
    let b2 := (esferaW1.colision esferaW2).2
    ((a2.vx : ℝ) * nx + (a2.vy : ℝ) * ny =
        (esferaW2.vx : ℝ) * nx + (esferaW2.vy : ℝ) * ny) ∧
      ((b2.vx : ℝ) * nx + (b2.vy : ℝ) * ny =
        (esferaW1.vx : ℝ) * nx + (esferaW1.vy : ℝ) * ny) ∧
      ((a2.vx : ℝ) * (-ny) + (a2.vy : ℝ) * nx =
        (esferaW1.vx : ℝ) * (-ny) + (esferaW1.vy : ℝ) * nx) ∧
      ((b2.vx : ℝ) * (-ny) + (b2.vy : ℝ) * nx =
        (esferaW2.vx : ℝ) * (-ny) + (esferaW2.vy : ℝ) * nx) ∧
      (esferaW1.m / 2 * (a2.vx * a2.vx + a2.vy * a2.vy) +
          esferaW2.m / 2 * (b2.vx * b2.vx + b2.vy * b2.vy) =
        esferaW1.m / 2 * (esferaW1.vx * esferaW1.vx + esferaW1.vy * esferaW1.vy) +
          esferaW2.m / 2 * (esferaW2.vx * esferaW2.vx + esferaW2.vy * esferaW2.vy)) :=
  colision_intercambia_normales esferaW1 esferaW2 rfl
    (by norm_num [esferaW1, esferaW2]) (by norm_num [esferaW1, esferaW2])

/-- C4 counterexample: with two overlapping particles (centers at distance
1, radii 1 each), running the `i<j` collision pass twice does not give the
same velocities as running it once — the second pass re-detects the
geometric overlap (positions are unchanged) and swaps the normal components
back. -/
theorem colisionPass_no_idempotente :
    colisionPass (colisionPass [Esfera.mk 1 0 0 1 0 1, Esfera.mk 1 1 0 0 0 1]) ≠
      colisionPass [Esfera.mk 1 0 0 1 0 1, Esfera.mk 1 1 0 0 0 1] := by
  have h1 : colisionPass [Esfera.mk 1 0 0 1 0 1, Esfera.mk 1 1 0 0 0 1] =
      [Esfera.mk 1 0 0 0 0 1, Esfera.mk 1 1 0 1 0 1] := by
    norm_num [colisionPass, colisionConResto, Esfera.colision, Esfera.mk.injEq]
  have h2 : colisionPass [Esfera.mk 1 0 0 0 0 1, Esfera.mk 1 1 0 1 0 1] =
      [Esfera.mk 1 0 0 1 0 1, Esfera.mk 1 1 0 0 0 1] := by
    norm_num [colisionPass, colisionConResto, Esfera.colision, Esfera.mk.injEq]
  rw [h1, h2]
  intro h
  have hvx := congrArg (fun l => (l.getD 0 (Esfera.mk 0 0 0 0 0 0)).vx) h
  simp only [List.getD_cons_zero] at hvx
  exact absurd hvx (by norm_num)

/-- C4 amended: on a single pair the collision resolution is an involution,
not idempotent — applying `colision` to its own output (positions fixed)
restores the original pair exactly, in every branch. -/
theorem colision_involucion (a b : Esfera) :
    Esfera.colision (a.colision b).1 (a.colision b).2 = (a, b) := by
  by_cases h1 : (b.x - a.x) * (b.x - a.x) + (b.y - a.y) * (b.y - a.y) ≤
      (a.R + b.R) * (a.R + b.R)
  · by_cases h2 : (b.x - a.x) * (b.x - a.x) + (b.y - a.y) * (b.y - a.y) = 0
    · have hab : a.colision b = (a, b) := by
        simp only [Esfera.colision]
        rw [if_pos h1, if_pos h2]
      rw [hab]
      simp only [Esfera.colision]
      rw [if_pos h1, if_pos h2]
    · rw [colision_eq_of_overlap a b h1 h2]
      dsimp only
      rw [colision_eq_of_overlap _ _ (by simpa using h1) (by simpa using h2)]
      dsimp only
      obtain ⟨ma, xa, ya, vxa, vya, Ra⟩ := a
      obtain ⟨mb, xb, yb, vxb, vyb, Rb⟩ := b
      simp only [Prod.mk.injEq, Esfera.mk.injEq, eq_self_iff_true, and_true, true_and] at h2 ⊢
      refine ⟨⟨?_, ?_⟩, ?_, ?_⟩ <;>
        · field_simp
          ring
  · have hab : a.colision b = (a, b) := by
      simp only [Esfera.colision]
      rw [if_neg h1]
    rw [hab]
    simp only [Esfera.colision]
    rw [if_neg h1]

/-- C7: the loop body of `integrar` is not the classical RK4 update.  Its
position stages are fed the previous position increment
(`k1[1] = h*(y1 + k1[0]/2)`) where classical RK4 feeds the velocity
increment (`h*(y1 + l1[0]/2)`).  Failing input: zero right-hand sides
(`f1 = f2 = 0`), one step of size `h = 1` from `(x1,x2,y1,y2) = (0,0,1,0)`.
With zero force the velocity is constant (`y1 = 1`), so the position must
advance by exactly `h·y1 = 1` (classical RK4 reproduces this); the code
advances it by `41/24`.  The loop does append exactly one state for this
time pair. -/
theorem rk4Step_no_es_clasico :
    ((rk4Step (fun _ _ _ _ _ => 0) (fun _ _ _ _ _ => 0) 0 1
        (OscState.mk 0 0 1 0)).x1 = 41/24) ∧
      ((rk4ClassicStep (fun _ _ _ _ _ => 0) (fun _ _ _ _ _ => 0) 0 1
        (OscState.mk 0 0 1 0)).x1 = 1) ∧
      (integrar (fun _ _ _ _ _ => 0) (fun _ _ _ _ _ => 0) (fun _ => true) [0, 1]
          (OscState.mk 0 0 1 0) =
        [OscState.mk 0 0 1 0,
          rk4Step (fun _ _ _ _ _ => 0) (fun _ _ _ _ _ => 0) 0 1 (OscState.mk 0 0 1 0)]) ∧
      rk4Step (fun _ _ _ _ _ => 0) (fun _ _ _ _ _ => 0) 0 1 (OscState.mk 0 0 1 0) ≠
        rk4ClassicStep (fun _ _ _ _ _ => 0) (fun _ _ _ _ _ => 0) 0 1 (OscState.mk 0 0 1 0) := by
  norm_num [rk4Step, rk4ClassicStep, integrar, integrarGo, finCheck, OscState.mk.injEq]

/-- Every element of the output of `integrarGo` except possibly the last passes
the finiteness check: the loop `break`s immediately after pushing a state
that fails it. -/
theorem integrarGo_finito_salvo_ultimo (f1 f2 : ℚ → ℚ → ℚ → ℚ → ℚ → ℚ)
    (fin : ℚ → Bool) :
    ∀ (t : List ℚ) (s : OscState) (j : ℕ),
      j + 1 < (integrarGo f1 f2 fin t s).length →
      finCheck fin ((integrarGo f1 f2 fin t s).getD j (OscState.mk 0 0 0 0)) = true := by
  intro t
  induction t with
  | nil => intro s j hj; simp [integrarGo] at hj
  | cons t0 rest ih =>
      cases rest with
      | nil => intro s j hj; simp [integrarGo] at hj
      | cons t1 rest2 =>
          intro s j hj
          by_cases hf : finCheck fin (rk4Step f1 f2 t0 (t1 - t0) s) = true
          · rw [show integrarGo f1 f2 fin (t0 :: t1 :: rest2) s =
                rk4Step f1 f2 t0 (t1 - t0) s ::
                  integrarGo f1 f2 fin (t1 :: rest2) (rk4Step f1 f2 t0 (t1 - t0) s) from by
              simp [integrarGo, hf]] at hj ⊢
            cases j with
            | zero => simpa using hf
            | succ j2 =>
                simp only [List.getD_cons_succ]
                exact ih _ j2 (by simpa using hj)
          · rw [show integrarGo f1 f2 fin (t0 :: t1 :: rest2) s =
                [rk4Step f1 f2 t0 (t1 - t0) s] from by simp [integrarGo, hf]] at hj
            simp only [List.length_singleton] at hj
            omega

/-- C9: if a step of `integrar` produces a state failing the finiteness
check (`std::isfinite` on `x1, y1, x2, y2`, abstracted as the predicate
`fin`), the loop halts there: a failing state can only be the last element
of the trajectory, so every appended state that has a successor passed the
check.  (The initial state, index 0, is never checked by the source.) -/
theorem integrar_se_detiene_en_primer_no_finito
    (f1 f2 : ℚ → ℚ → ℚ → ℚ → ℚ → ℚ) (fin : ℚ → Bool) (t : List ℚ)
    (s0 : OscState) (i : ℕ) (h1 : 1 ≤ i)
    (h2 : i + 1 < (integrar f1 f2 fin t s0).length) :
    finCheck fin ((integrar f1 f2 fin t s0).getD i (OscState.mk 0 0 0 0)) = true := by
  obtain ⟨j, rfl⟩ : ∃ j, i = j + 1 := ⟨i - 1, by omega⟩
  simp only [integrar, List.getD_cons_succ]
  apply integrarGo_finito_salvo_ultimo
  simp only [integrar, List.length_cons] at h2
  omega

/-- Witness for C9: constant acceleration `100`, finiteness predicate
`q ≤ 150`, grid `[0,1,2,3,4,5]`: the run halts after its first failing
state (the trajectory has 3 entries, not 6), and the middle entry — the
only appended one with a successor — passes the check. -/
theorem integrar_se_detiene_witness :
    finCheck (fun q => decide (q ≤ 150))
      ((integrar (fun _ _ _ _ _ => 100) (fun _ _ _ _ _ => 0) (fun q => decide (q ≤ 150))
          [0, 1, 2, 3, 4, 5] (OscState.mk 0 0 0 0)).getD 1 (OscState.mk 0 0 0 0)) = true :=
  integrar_se_detiene_en_primer_no_finito _ _ _ _ _ 1 (by norm_num)
    (by norm_num [integrar, integrarGo, rk4Step, finCheck])
